import Mathlib

/-!
Shallow embedding of the Cybersecurity-Risk-Calculator risk engine.

Sources: the main React calculator component (the repository's single
application source file) and the Netlify identity-signup webhook
(`netlify/functions/identity-signup.js`).

Modelling conventions: JavaScript numbers are modelled as real numbers;
`Math.log10 x` is `Real.logb 10 x`, `Math.round` is `round : ℝ → ℤ`,
`Math.max` / `Math.min` are `max` / `min`.  Display-only fields of the
static catalogs (icon strings, chart colors) are omitted; every numeric
field and every piece of computation logic is carried over from the
source.  The percentile keys `'5th'`, `'25th'`, `'Median'`, `'75th'`,
`'95th'` become the fields `p5`, `p25`, `median`, `p75`, `p95`.
-/

noncomputable section

-- `SECURITY_WEIGHTS` constant from the source.
namespace SECURITY_WEIGHTS

def BACKUPS : ℝ := 0.15

def MFA : ℝ := 0.2

def PHISHING_TRAINING : ℝ := 0.15

def VENDOR_REVIEWS : ℝ := 0.25

def IR_TABLETOP : ℝ := 0.1

def BASE_SECURITY : ℝ := 0.15

end SECURITY_WEIGHTS

structure CostCategory where
  name : String
  baseCost : ℝ

-- `COST_CATEGORIES` constant (icons omitted: display-only).
def COST_CATEGORIES : List CostCategory :=
  [⟨"Emergency IT/Forensics", 85000⟩,
   ⟨"Legal/Compliance", 120000⟩,
   ⟨"PR/Client Communications", 45000⟩,
   ⟨"Revenue Loss", 180000⟩,
   ⟨"Temporary Systems", 60000⟩,
   ⟨"Staff Overtime", 40000⟩,
   ⟨"Client Churn", 390000⟩,
   ⟨"Insurance Premium Increase", 25000⟩,
   ⟨"Security Overhaul", 150000⟩,
   ⟨"Regulatory Fines", 75000⟩,
   ⟨"Audit Costs", 30000⟩]

structure ThreatScenario where
  name : String
  baseCost : ℝ
  frequency : ℝ
  severity : ℝ

-- The three entries of `THREAT_SCENARIOS` (colors omitted: display-only).
def phishingScenario : ThreatScenario := ⟨"Phishing", 300000, 0.3, 0.7⟩

def ransomwareScenario : ThreatScenario := ⟨"Ransomware", 800000, 0.15, 0.9⟩

def vendorBreachScenario : ThreatScenario := ⟨"Vendor Breach", 450000, 0.2, 0.6⟩

-- `THREAT_SCENARIOS` constant.
def THREAT_SCENARIOS : List ThreatScenario :=
  [phishingScenario, ransomwareScenario, vendorBreachScenario]

structure InputLimits where
  min : ℝ
  max : ℝ

inductive InputField
  | employees
  | revenue
  | insurance
  deriving DecidableEq

-- `INPUT_LIMITS` constant.
def INPUT_LIMITS : InputField → InputLimits
  | .employees => ⟨1, 1000000⟩
  | .revenue => ⟨0, 100000000000⟩
  | .insurance => ⟨0, 50000000⟩

-- Rendering of the rejection message
-- `Value must be between ${limits.min.toLocaleString()} and ${limits.max.toLocaleString()}`
-- at the three concrete limit pairs (`toLocaleString` is a platform
-- function, modelled by its observable en-US output on these constants).
def boundMessage : InputField → String
  | .employees => "Value must be between 1 and 1,000,000"
  | .revenue => "Value must be between 0 and 100,000,000,000"
  | .insurance => "Value must be between 0 and 50,000,000"

-- `validateInput` from the source.  The error state `inputErrors` (a JS
-- object keyed by field name) is modelled as a function
-- `InputField → Option String`; the returned pair is (return value,
-- updated error state).  The `if (!limits) return true` branch of the
-- source is unreachable here because `InputField` enumerates exactly the
-- configured fields.
def validateInput (field : InputField) (value : ℝ)
    (errors : InputField → Option String) : Bool × (InputField → Option String) :=
  let limits := INPUT_LIMITS field
  if value < limits.min ∨ value > limits.max then
    (false, fun f => if f = field then some (boundMessage field) else errors f)
  else
    (true, fun f => if f = field then none else errors f)

-- The `inputs` state object (numeric fields plus the five control toggles).
structure Inputs where
  employees : ℝ
  revenue : ℝ
  insurance : ℝ
  backupsIsolated : Bool
  mfaEnabled : Bool
  phishingTraining : Bool
  vendorReviews : Bool
  irTabletop : Bool

-- Inputs with every control toggled off (used to exercise the base-weight case).
def noControlsInputs : Inputs :=
  { employees := 250
    revenue := 50000000
    insurance := 1000000
    backupsIsolated := false
    mfaEnabled := false
    phishingTraining := false
    vendorReviews := false
    irTabletop := false }

-- Initial `useState` value of `inputs`.
def defaultInputs : Inputs :=
  { employees := 250
    revenue := 50000000
    insurance := 1000000
    backupsIsolated := true
    mfaEnabled := true
    phishingTraining := true
    vendorReviews := true
    irTabletop := true }

structure OrganizationFactors where
  sizeFactor : ℝ
  revenueFactor : ℝ
  riskReduction : ℝ

-- `adjustedBase` local of `generateRealisticPercentiles`.
def adjustedBase (baseCost : ℝ) (f : OrganizationFactors) : ℝ :=
  baseCost * f.sizeFactor * f.revenueFactor * (1 - f.riskReduction)

structure Percentiles where
  p5 : ℤ
  p25 : ℤ
  median : ℤ
  p75 : ℤ
  p95 : ℤ

-- `longTailFactor` local constant of `generateRealisticPercentiles`.
def longTailFactor : ℝ := 1.8

-- `generateRealisticPercentiles` from the source.
def generateRealisticPercentiles (baseCost : ℝ) (f : OrganizationFactors) : Percentiles :=
  let adjBase := adjustedBase baseCost f
  let baseVariance := adjBase * 0.6
  { p5 := round (max (adjBase * 0.15) (adjBase - baseVariance * 1.5))
    p25 := round (adjBase * 0.55)
    median := round adjBase
    p75 := round (adjBase * 1.65)
    p95 := round (adjBase * longTailFactor * 2.2) }

-- `securityScore` computed inside the `results` `useMemo`.
def securityScore (i : Inputs) : ℝ :=
  (if i.backupsIsolated = true then SECURITY_WEIGHTS.BACKUPS else 0) +
  (if i.mfaEnabled = true then SECURITY_WEIGHTS.MFA else 0) +
  (if i.phishingTraining = true then SECURITY_WEIGHTS.PHISHING_TRAINING else 0) +
  (if i.vendorReviews = true then SECURITY_WEIGHTS.VENDOR_REVIEWS else 0) +
  (if i.irTabletop = true then SECURITY_WEIGHTS.IR_TABLETOP else 0) +
  SECURITY_WEIGHTS.BASE_SECURITY

-- `sizeFactor` from the source.
def sizeFactor (i : Inputs) : ℝ :=
  max 1 (Real.logb 10 (max i.employees 10 / 100) * 0.2 + 1)

-- `revenueFactor` from the source.
def revenueFactor (i : Inputs) : ℝ :=
  max 1 (Real.logb 10 (max i.revenue 1000000 / 10000000) * 0.15 + 1)

-- `riskReduction` from the source (fraction, before the `* 100` display scaling).
def riskReduction (i : Inputs) : ℝ :=
  min (securityScore i * 0.65) 0.75

-- `organizationFactors` record from the source.
def organizationFactors (i : Inputs) : OrganizationFactors :=
  { sizeFactor := sizeFactor i
    revenueFactor := revenueFactor i
    riskReduction := riskReduction i }

-- One element of the `scenarios` array: `{ ...scenario, percentiles }`.
structure ScenarioResult where
  scenario : ThreatScenario
  percentiles : Percentiles

-- `scenarios` array from the source.
def scenarios (i : Inputs) : List ScenarioResult :=
  THREAT_SCENARIOS.map fun s =>
    { scenario := s
      percentiles := generateRealisticPercentiles s.baseCost (organizationFactors i) }

-- The five control-specific additive reductions applied to `reductionFactor`
-- before the synergy bonus (the chain of `if (... && ...) reductionFactor += ...`).
def directReduction (i : Inputs) (name : String) : ℝ :=
  (if name = "Emergency IT/Forensics" ∧ i.backupsIsolated = true then 0.35 else 0) +
  (if name = "Revenue Loss" ∧ i.mfaEnabled = true then 0.25 else 0) +
  (if name = "Client Churn" ∧ i.phishingTraining = true then 0.30 else 0) +
  (if name = "Regulatory Fines" ∧ i.vendorReviews = true then 0.45 else 0) +
  (if name = "Staff Overtime" ∧ i.irTabletop = true then 0.40 else 0)

-- `enabledControls` from the source (`[...].filter(Boolean).length`).
def enabledControls (i : Inputs) : ℕ :=
  ([i.backupsIsolated, i.mfaEnabled, i.phishingTraining, i.vendorReviews,
    i.irTabletop].filter (fun b => b)).length

-- `synergyBonus` from the source.
def synergyBonus (n : ℕ) : ℝ :=
  if n ≥ 4 then 0.15 else if n ≥ 3 then 0.10 else 0

-- Final `reductionFactor` (direct reductions plus synergy, capped at 0.70).
def reductionFactor (i : Inputs) (name : String) : ℝ :=
  min (directReduction i name + synergyBonus (enabledControls i)) 0.70

-- One element of the `adjustedCosts` array: `{ ...category, reductionFactor,
-- adjustedCost }` (color omitted: display-only).
structure CostEntry where
  category : CostCategory
  reductionFactor : ℝ
  adjustedCost : ℤ

-- `adjustedCosts` array from the source.
def adjustedCosts (i : Inputs) : List CostEntry :=
  COST_CATEGORIES.map fun category =>
    { category := category
      reductionFactor := reductionFactor i category.name
      adjustedCost :=
        round (category.baseCost * (1 - reductionFactor i category.name) * sizeFactor i) }

-- `totalCost` from the source (`reduce((sum, cat) => sum + cat.adjustedCost, 0)`).
def totalCost (i : Inputs) : ℤ :=
  ((adjustedCosts i).map (fun e => e.adjustedCost)).sum

-- The object returned by the `results` `useMemo` on the success path.
structure RiskResults where
  scenarios : List ScenarioResult
  costBreakdown : List CostEntry
  totalCost : ℤ
  securityScore : ℤ
  riskReduction : ℤ

-- `results` from the source.  In the real-number model every arithmetic
-- operation is total, so the `catch` branch (which returns `null` when an
-- exception is thrown) is unreachable and the success-path object is
-- always produced.
def results (i : Inputs) : RiskResults :=
  { scenarios := scenarios i
    costBreakdown := adjustedCosts i
    totalCost := totalCost i
    securityScore := round (securityScore i * 100)
    riskReduction := round (riskReduction i * 100) }

-- Membership of the numeric inputs in their configured `INPUT_LIMITS` ranges.
def inRange (i : Inputs) : Prop :=
  ((INPUT_LIMITS .employees).min ≤ i.employees ∧
    i.employees ≤ (INPUT_LIMITS .employees).max) ∧
  ((INPUT_LIMITS .revenue).min ≤ i.revenue ∧
    i.revenue ≤ (INPUT_LIMITS .revenue).max) ∧
  ((INPUT_LIMITS .insurance).min ≤ i.insurance ∧
    i.insurance ≤ (INPUT_LIMITS .insurance).max)

-- Quantification device for the monotonicity claim: the five control
-- toggles, and updating a single one while every other input field is
-- held fixed.
inductive SecurityControl
  | backups
  | mfa
  | phishing
  | vendor
  | ir

def setControl (i : Inputs) (c : SecurityControl) (b : Bool) : Inputs :=
  match c with
  | .backups => { i with backupsIsolated := b }
  | .mfa => { i with mfaEnabled := b }
  | .phishing => { i with phishingTraining := b }
  | .vendor => { i with vendorReviews := b }
  | .ir => { i with irTabletop := b }

def getControl (i : Inputs) (c : SecurityControl) : Bool :=
  match c with
  | .backups => i.backupsIsolated
  | .mfa => i.mfaEnabled
  | .phishing => i.phishingTraining
  | .vendor => i.vendorReviews
  | .ir => i.irTabletop

-- JSON values, for the webhook response bodies.
inductive Json
  | null
  | bool (b : Bool)
  | num (q : ℚ)
  | str (s : String)
  | arr (elems : List Json)
  | obj (fields : List (String × Json))

structure HandlerEvent where
  body : Option String

structure HandlerResponse where
  statusCode : ℕ
  body : Json

-- JS `event.body || '{}'`: `undefined`/`null` and the empty string are
-- falsy, so they fall through to the default.
def orDefault (s : Option String) (dflt : String) : String :=
  match s with
  | none => dflt
  | some str => if str = "" then dflt else str

-- The literal `{ app_metadata: { roles: ['subscriber'] } }` that the
-- webhook stringifies into its response body.
def subscriberGrant : Json :=
  .obj [("app_metadata", .obj [("roles", .arr [.str "subscriber"])])]

-- `exports.handler` of `identity-signup.js`.  `JSON.parse` is a platform
-- primitive; its outcome on the request body is modelled by the supplied
-- `parseJson` function (`none` = the parse throws, which is the only
-- statement inside the `try` that can throw).  The parsed `payload` (and
-- the derived `user`) is never read on the success path, so the success
-- response is independent of it.
def handler (parseJson : String → Option Json) (event : HandlerEvent) : HandlerResponse :=
  match parseJson (orDefault event.body "{}") with
  | some _payload => { statusCode := 200, body := subscriberGrant }
  | none => { statusCode := 200, body := .obj [] }

/-! General helper lemmas about rounding and weighted if-then-else terms. -/

lemma roundMono {x y : ℝ} (h : x ≤ y) : round x ≤ round y := by
  rw [round_eq, round_eq]
  exact Int.floor_mono (by linarith)

lemma roundNonneg {x : ℝ} (h : 0 ≤ x) : 0 ≤ round x := by
  rw [round_eq]
  exact Int.le_floor.mpr (by push_cast; linarith)

lemma iteWeightLe {Q R : Prop} [Decidable Q] [Decidable R] {w : ℝ} (h : Q → R)
    (hw : 0 ≤ w) : (if Q then w else 0) ≤ if R then w else 0 := by
  split_ifs with h1 h2
  · exact le_refl w
  · exact absurd (h h1) h2
  · exact hw
  · exact le_refl 0

/-! Bounds on the security score and the reduction quantities. -/

lemma securityScore_bounds (i : Inputs) : 0.15 ≤ securityScore i ∧ securityScore i ≤ 1 := by
  obtain ⟨e, r, ins, b1, b2, b3, b4, b5⟩ := i
  cases b1 <;> cases b2 <;> cases b3 <;> cases b4 <;> cases b5 <;>
    norm_num [securityScore, SECURITY_WEIGHTS.BACKUPS, SECURITY_WEIGHTS.MFA,
      SECURITY_WEIGHTS.PHISHING_TRAINING, SECURITY_WEIGHTS.VENDOR_REVIEWS,
      SECURITY_WEIGHTS.IR_TABLETOP, SECURITY_WEIGHTS.BASE_SECURITY]

lemma riskReduction_le (i : Inputs) : riskReduction i ≤ 0.75 := by
  unfold riskReduction
  exact min_le_right _ _

lemma reductionFactor_le (i : Inputs) (name : String) : reductionFactor i name ≤ 0.70 := by
  unfold reductionFactor
  exact min_le_right _ _

lemma synergyBonus_le (n : ℕ) : synergyBonus n ≤ 0.15 := by
  unfold synergyBonus
  split_ifs <;> norm_num

lemma synergyBonus_nonneg (n : ℕ) : 0 ≤ synergyBonus n := by
  unfold synergyBonus
  split_ifs <;> norm_num

lemma sizeFactor_ge_one (i : Inputs) : 1 ≤ sizeFactor i := le_max_left _ _

lemma sizeFactor_nonneg (i : Inputs) : 0 ≤ sizeFactor i :=
  le_trans zero_le_one (sizeFactor_ge_one i)

lemma revenueFactor_ge_one (i : Inputs) : 1 ≤ revenueFactor i := le_max_left _ _

/-- C4: for all 32 combinations of the five control booleans the security-score
fraction satisfies `0.15 ≤ securityScore ≤ 1.0`; with all five controls enabled
it equals exactly `1.0`, and with none enabled it equals exactly the base
weight `0.15`. -/
theorem c4_security_score_bounds (i : Inputs) :
    (0.15 ≤ securityScore i ∧ securityScore i ≤ 1) ∧
    (i.backupsIsolated = true ∧ i.mfaEnabled = true ∧ i.phishingTraining = true ∧
      i.vendorReviews = true ∧ i.irTabletop = true → securityScore i = 1) ∧
    (i.backupsIsolated = false ∧ i.mfaEnabled = false ∧ i.phishingTraining = false ∧
      i.vendorReviews = false ∧ i.irTabletop = false → securityScore i = 0.15) := by
  refine ⟨securityScore_bounds i, fun h => ?_, fun h => ?_⟩ <;>
    · obtain ⟨h1, h2, h3, h4, h5⟩ := h
      norm_num [securityScore, h1, h2, h3, h4, h5, SECURITY_WEIGHTS.BACKUPS,
        SECURITY_WEIGHTS.MFA, SECURITY_WEIGHTS.PHISHING_TRAINING,
        SECURITY_WEIGHTS.VENDOR_REVIEWS, SECURITY_WEIGHTS.IR_TABLETOP,
        SECURITY_WEIGHTS.BASE_SECURITY]

/-- Witness for C4 at the two extreme control sets. -/
theorem c4_security_score_bounds_witness :
    securityScore defaultInputs = 1 ∧ securityScore noControlsInputs = 0.15 :=
  ⟨(c4_security_score_bounds defaultInputs).2.1 ⟨rfl, rfl, rfl, rfl, rfl⟩,
   (c4_security_score_bounds noControlsInputs).2.2 ⟨rfl, rfl, rfl, rfl, rfl⟩⟩

/-- C5: for every input the risk-reduction fraction is at most `0.75` and every
cost category's `reductionFactor` is at most `0.70` (here proved for every
category name, in particular for each of the eleven catalog categories). -/
theorem c5_reduction_caps (i : Inputs) :
    riskReduction i ≤ 0.75 ∧ ∀ name : String, reductionFactor i name ≤ 0.70 :=
  ⟨riskReduction_le i, fun name => reductionFactor_le i name⟩

/-! The `5th`-percentile `max` always resolves to its first argument. -/

lemma fifth_max_eq (A : ℝ) (h : 0 ≤ A) : max (A * 0.15) (A - A * 0.6 * 1.5) = A * 0.15 :=
  max_eq_left (by linarith)

/-- C9: for every nonnegative `adjustedBase` the variance branch
`adjustedBase - baseVariance * 1.5` is dominated by the floor branch
`adjustedBase * 0.15`, so the generated `5th` percentile is exactly
`round (0.15 * adjustedBase)`. -/
theorem c9_fifth_percentile_floor (baseCost : ℝ) (f : OrganizationFactors)
    (h : 0 ≤ adjustedBase baseCost f) :
    max (adjustedBase baseCost f * 0.15)
        (adjustedBase baseCost f - adjustedBase baseCost f * 0.6 * 1.5) =
      adjustedBase baseCost f * 0.15 ∧
    (generateRealisticPercentiles baseCost f).p5 = round (0.15 * adjustedBase baseCost f) := by
  refine ⟨fifth_max_eq _ h, ?_⟩
  simp only [generateRealisticPercentiles]
  rw [fifth_max_eq _ h, mul_comm]

/-- Witness for C9 at `baseCost = 100` and unit factors. -/
theorem c9_fifth_percentile_floor_witness :
    (0 : ℝ) ≤ adjustedBase 100 ⟨1, 1, 0⟩ ∧
    (generateRealisticPercentiles 100 ⟨1, 1, 0⟩).p5 =
      round ((0.15 : ℝ) * adjustedBase 100 ⟨1, 1, 0⟩) :=
  ⟨by norm_num [adjustedBase],
   (c9_fifth_percentile_floor 100 ⟨1, 1, 0⟩ (by norm_num [adjustedBase])).2⟩

/-- C8: the signup webhook always answers with HTTP status 200; when the body
parses it grants exactly the single fixed role `subscriber` inside
`app_metadata.roles`, and when parsing fails it still answers 200 with an
empty JSON object body; being a total function it never throws. -/
theorem c8_webhook_always_200 (parseJson : String → Option Json) (event : HandlerEvent) :
    (handler parseJson event).statusCode = 200 ∧
    (∀ j, parseJson (orDefault event.body "{}") = some j →
      (handler parseJson event).body =
        Json.obj [("app_metadata", Json.obj [("roles", Json.arr [Json.str "subscriber"])])]) ∧
    (parseJson (orDefault event.body "{}") = none →
      (handler parseJson event).body = Json.obj []) := by
  unfold handler
  rcases hp : parseJson (orDefault event.body "{}") with _ | j <;>
    simp [hp, subscriberGrant]

/-- Witness for C8: a parse that succeeds and a parse that throws. -/
theorem c8_webhook_always_200_witness :
    (handler (fun _ => some Json.null) ⟨none⟩).statusCode = 200 ∧
    (handler (fun _ => some Json.null) ⟨none⟩).body =
      Json.obj [("app_metadata", Json.obj [("roles", Json.arr [Json.str "subscriber"])])] ∧
    (handler (fun _ => none) ⟨some "not valid json"⟩).body = Json.obj [] :=
  ⟨(c8_webhook_always_200 (fun _ => some Json.null) ⟨none⟩).1,
   (c8_webhook_always_200 (fun _ => some Json.null) ⟨none⟩).2.1 Json.null rfl,
   (c8_webhook_always_200 (fun _ => none) ⟨some "not valid json"⟩).2.2 rfl⟩

/-- C7: for every configured field and numeric value the validator accepts
exactly the values inside the field's `[min, max]` range; on rejection it
records the bound message under the field's key, on acceptance it clears the
field's key, and in both cases it leaves every other field's recorded error
unchanged; being a total function it never throws. -/
theorem c7_validate_input (field : InputField) (value : ℝ)
    (errors : InputField → Option String) :
    ((validateInput field value errors).1 = true ↔
      (INPUT_LIMITS field).min ≤ value ∧ value ≤ (INPUT_LIMITS field).max) ∧
    ((validateInput field value errors).1 = false →
      (validateInput field value errors).2 field = some (boundMessage field) ∧
      ∀ g, g ≠ field → (validateInput field value errors).2 g = errors g) ∧
    ((validateInput field value errors).1 = true →
      (validateInput field value errors).2 field = none ∧
      ∀ g, g ≠ field → (validateInput field value errors).2 g = errors g) := by
  simp only [validateInput]
  split_ifs with h
  · refine ⟨?_, fun _ => ⟨by simp, fun g hg => by simp [hg]⟩, fun hf => by simp at hf⟩
    simp only [Bool.false_eq_true, false_iff, not_and_or, not_le]
    exact h
  · push_neg at h
    exact ⟨by simp [h.1, h.2], fun hf => by simp at hf,
      fun _ => ⟨by simp, fun g hg => by simp [hg]⟩⟩

/-- Witness for C7: an in-range employee count is accepted and clears the
employees key while an unrelated recorded error survives; the bound messages
and rejection behavior are exercised through the same theorem instance. -/
theorem c7_validate_input_witness :
    (validateInput .employees 250 (fun g => if g = .revenue then some "stale" else none)).1
        = true ∧
    (validateInput .employees 250 (fun g => if g = .revenue then some "stale" else none)).2
        .employees = none ∧
    (validateInput .employees 250 (fun g => if g = .revenue then some "stale" else none)).2
        .revenue = some "stale" := by
  have h := c7_validate_input .employees 250
    (fun g => if g = .revenue then some "stale" else none)
  have ht : (validateInput .employees 250
      (fun g => if g = .revenue then some "stale" else none)).1 = true :=
    h.1.mpr (by norm_num [INPUT_LIMITS])
  refine ⟨ht, ((h.2.2) ht).1, ?_⟩
  have := ((h.2.2) ht).2 .revenue (by simp)
  simpa using this

/-! Helper bounds for the uncapped reduction quantities. -/

lemma securityScore_le_one (i : Inputs) : securityScore i ≤ 1 :=
  (securityScore_bounds i).2

lemma directReduction_le_catalog (i : Inputs) :
    ∀ cat ∈ COST_CATEGORIES, directReduction i cat.name ≤ 0.45 := by
  intro cat hcat
  fin_cases hcat <;>
    simp [directReduction] <;>
    first
      | (split_ifs <;> norm_num)
      | norm_num

lemma directReduction_nonneg (i : Inputs) (name : String) :
    0 ≤ directReduction i name := by
  unfold directReduction
  split_ifs <;> norm_num

/-- C10: neither cap in the code ever binds: the risk reduction equals the
uncapped `securityScore * 0.65` and stays at or below `0.65 < 0.75`, and for
every catalog category the `reductionFactor` equals the uncapped
`directReduction + synergyBonus` and stays at or below `0.60 < 0.70`, so
removing both `min` operations would not change any output. -/
theorem c10_caps_never_bind (i : Inputs) :
    (riskReduction i = securityScore i * 0.65 ∧ riskReduction i ≤ 0.65) ∧
    ∀ cat ∈ COST_CATEGORIES,
      reductionFactor i cat.name =
        directReduction i cat.name + synergyBonus (enabledControls i) ∧
      reductionFactor i cat.name ≤ 0.60 := by
  have hs := securityScore_le_one i
  have h1 : riskReduction i = securityScore i * 0.65 := by
    unfold riskReduction
    exact min_eq_left (by linarith)
  refine ⟨⟨h1, by rw [h1]; linarith⟩, fun cat hcat => ?_⟩
  have hd := directReduction_le_catalog i cat hcat
  have hb := synergyBonus_le (enabledControls i)
  have h2 : reductionFactor i cat.name =
      directReduction i cat.name + synergyBonus (enabledControls i) := by
    unfold reductionFactor
    exact min_eq_left (by linarith)
  exact ⟨h2, by rw [h2]; linarith⟩

/-- Witness for C10 at the first catalog category and the default inputs. -/
theorem c10_caps_never_bind_witness :
    reductionFactor defaultInputs "Emergency IT/Forensics" =
      directReduction defaultInputs "Emergency IT/Forensics" +
        synergyBonus (enabledControls defaultInputs) ∧
    reductionFactor defaultInputs "Emergency IT/Forensics" ≤ 0.60 :=
  (c10_caps_never_bind defaultInputs).2 ⟨"Emergency IT/Forensics", 85000⟩
    (by simp [COST_CATEGORIES])

/-! Monotonicity infrastructure for C1: flipping one control to `true`. -/

lemma iteWeightLeSelf (Q : Prop) [Decidable Q] {w : ℝ} (hw : 0 ≤ w) :
    (if Q then w else 0) ≤ w := by
  split_ifs
  · exact le_refl w
  · exact hw

lemma securityScore_set_mono (i : Inputs) (c : SecurityControl) :
    securityScore i ≤ securityScore (setControl i c true) := by
  cases c <;>
    · simp only [securityScore, setControl]
      refine add_le_add (add_le_add (add_le_add (add_le_add (add_le_add ?_ ?_) ?_) ?_) ?_)
        (le_refl _) <;>
        first
          | exact le_refl _
          | exact iteWeightLeSelf _ (by norm_num [SECURITY_WEIGHTS.BACKUPS,
              SECURITY_WEIGHTS.MFA, SECURITY_WEIGHTS.PHISHING_TRAINING,
              SECURITY_WEIGHTS.VENDOR_REVIEWS, SECURITY_WEIGHTS.IR_TABLETOP])

lemma enabledControls_set_mono (i : Inputs) (c : SecurityControl) :
    enabledControls i ≤ enabledControls (setControl i c true) := by
  obtain ⟨e, r, ins, b1, b2, b3, b4, b5⟩ := i
  cases c <;> cases b1 <;> cases b2 <;> cases b3 <;> cases b4 <;> cases b5 <;>
    simp [enabledControls, setControl]

lemma synergyBonus_mono {m n : ℕ} (h : m ≤ n) : synergyBonus m ≤ synergyBonus n := by
  unfold synergyBonus
  split_ifs <;> first | (exfalso; omega) | norm_num

lemma directReduction_set_mono (i : Inputs) (c : SecurityControl) (name : String) :
    directReduction i name ≤ directReduction (setControl i c true) name := by
  cases c <;>
    · simp only [directReduction, setControl]
      refine add_le_add (add_le_add (add_le_add (add_le_add ?_ ?_) ?_) ?_) ?_ <;>
        first
          | exact le_refl _
          | exact iteWeightLe (fun hq => ⟨hq.1, trivial⟩) (by norm_num)

lemma reductionFactor_set_mono (i : Inputs) (c : SecurityControl) (name : String) :
    reductionFactor i name ≤ reductionFactor (setControl i c true) name := by
  unfold reductionFactor
  exact min_le_min
    (add_le_add (directReduction_set_mono i c name)
      (synergyBonus_mono (enabledControls_set_mono i c))) (le_refl _)

lemma sizeFactor_setControl (i : Inputs) (c : SecurityControl) (b : Bool) :
    sizeFactor (setControl i c b) = sizeFactor i := by
  cases c <;> rfl

lemma totalCost_set_mono (i : Inputs) (c : SecurityControl) :
    totalCost (setControl i c true) ≤ totalCost i := by
  unfold totalCost adjustedCosts
  rw [List.map_map, List.map_map]
  refine List.sum_le_sum fun cat hcat => ?_
  simp only [Function.comp]
  rw [sizeFactor_setControl]
  have hbc : (0 : ℝ) ≤ cat.baseCost := by
    fin_cases hcat <;> norm_num
  have hrf := reductionFactor_set_mono i c cat.name
  exact roundMono
    (mul_le_mul_of_nonneg_right
      (mul_le_mul_of_nonneg_left (by linarith) hbc) (sizeFactor_nonneg i))

/-- C1: enabling any single additional control, holding the profile and the
other four controls fixed, never increases the result's `totalCost` and never
decreases its `securityScore`. -/
theorem c1_enable_control_monotone (i : Inputs) (c : SecurityControl)
    (_h : getControl i c = false) :
    (results (setControl i c true)).totalCost ≤ (results i).totalCost ∧
    (results i).securityScore ≤ (results (setControl i c true)).securityScore := by
  refine ⟨totalCost_set_mono i c, ?_⟩
  simp only [results]
  exact roundMono (mul_le_mul_of_nonneg_right (securityScore_set_mono i c) (by norm_num))

/-- Witness for C1: switching on isolated backups starting from the
configuration with the other four controls enabled. -/
theorem c1_enable_control_monotone_witness :
    (results (setControl { defaultInputs with backupsIsolated := false }
        SecurityControl.backups true)).totalCost ≤
      (results { defaultInputs with backupsIsolated := false }).totalCost ∧
    (results { defaultInputs with backupsIsolated := false }).securityScore ≤
      (results (setControl { defaultInputs with backupsIsolated := false }
        SecurityControl.backups true)).securityScore :=
  c1_enable_control_monotone { defaultInputs with backupsIsolated := false }
    SecurityControl.backups rfl

/-! Ordering and non-negativity infrastructure for C2. -/

lemma one_sub_riskReduction_nonneg (i : Inputs) : 0 ≤ 1 - riskReduction i := by
  have := riskReduction_le i
  linarith

lemma revenueFactor_nonneg (i : Inputs) : 0 ≤ revenueFactor i :=
  le_trans zero_le_one (revenueFactor_ge_one i)

lemma adjustedBase_org_nonneg (i : Inputs) {baseCost : ℝ} (h : 0 ≤ baseCost) :
    0 ≤ adjustedBase baseCost (organizationFactors i) := by
  unfold adjustedBase organizationFactors
  exact mul_nonneg
    (mul_nonneg (mul_nonneg h (sizeFactor_nonneg i)) (revenueFactor_nonneg i))
    (one_sub_riskReduction_nonneg i)

lemma percentiles_ordered (i : Inputs) {baseCost : ℝ} (hbc : 0 ≤ baseCost) :
    0 ≤ (generateRealisticPercentiles baseCost (organizationFactors i)).p5 ∧
    (generateRealisticPercentiles baseCost (organizationFactors i)).p5 ≤
      (generateRealisticPercentiles baseCost (organizationFactors i)).p25 ∧
    (generateRealisticPercentiles baseCost (organizationFactors i)).p25 ≤
      (generateRealisticPercentiles baseCost (organizationFactors i)).median ∧
    (generateRealisticPercentiles baseCost (organizationFactors i)).median ≤
      (generateRealisticPercentiles baseCost (organizationFactors i)).p75 ∧
    (generateRealisticPercentiles baseCost (organizationFactors i)).p75 ≤
      (generateRealisticPercentiles baseCost (organizationFactors i)).p95 := by
  have hA : 0 ≤ adjustedBase baseCost (organizationFactors i) :=
    adjustedBase_org_nonneg i hbc
  set A := adjustedBase baseCost (organizationFactors i) with hAdef
  simp only [generateRealisticPercentiles, longTailFactor]
  rw [fifth_max_eq A hA]
  refine ⟨roundNonneg (by linarith), roundMono (by linarith), roundMono (by linarith),
    roundMono (by linarith), roundMono (by linarith)⟩

lemma adjustedCost_entry_nonneg (i : Inputs) (cat : CostCategory)
    (hbc : 0 ≤ cat.baseCost) :
    0 ≤ round (cat.baseCost * (1 - reductionFactor i cat.name) * sizeFactor i) := by
  have hrf := reductionFactor_le i cat.name
  exact roundNonneg
    (mul_nonneg (mul_nonneg hbc (by linarith)) (sizeFactor_nonneg i))

/-- C2: for every scenario in the fixed catalog the generated percentiles
satisfy `0 ≤ 5th ≤ 25th ≤ Median ≤ 75th ≤ 95th`, and every category
`adjustedCost` is nonnegative, for any in-range input. -/
theorem c2_percentile_ordering_nonneg (i : Inputs) (_hin : inRange i) :
    (∀ sr ∈ (results i).scenarios,
      0 ≤ sr.percentiles.p5 ∧ sr.percentiles.p5 ≤ sr.percentiles.p25 ∧
      sr.percentiles.p25 ≤ sr.percentiles.median ∧
      sr.percentiles.median ≤ sr.percentiles.p75 ∧
      sr.percentiles.p75 ≤ sr.percentiles.p95) ∧
    ∀ ce ∈ (results i).costBreakdown, 0 ≤ ce.adjustedCost := by
  constructor
  · intro sr hsr
    simp only [results, scenarios] at hsr
    rw [List.mem_map] at hsr
    obtain ⟨s, hs, rfl⟩ := hsr
    have hbc : (0 : ℝ) ≤ s.baseCost := by
      fin_cases hs <;>
        norm_num [phishingScenario, ransomwareScenario, vendorBreachScenario]
    exact percentiles_ordered i hbc
  · intro ce hce
    simp only [results, adjustedCosts] at hce
    rw [List.mem_map] at hce
    obtain ⟨cat, hcat, rfl⟩ := hce
    have hbc : (0 : ℝ) ≤ cat.baseCost := by
      fin_cases hcat <;> norm_num
    exact adjustedCost_entry_nonneg i cat hbc

-- The scenario entry that `results` produces for the Phishing scenario.
def phishingEntry (i : Inputs) : ScenarioResult :=
  ⟨phishingScenario,
    generateRealisticPercentiles phishingScenario.baseCost (organizationFactors i)⟩

/-- Witness for C2 at the default inputs and the Phishing scenario entry. -/
theorem c2_percentile_ordering_nonneg_witness :
    0 ≤ (phishingEntry defaultInputs).percentiles.p5 ∧
    (phishingEntry defaultInputs).percentiles.p5 ≤
      (phishingEntry defaultInputs).percentiles.p25 ∧
    (phishingEntry defaultInputs).percentiles.p25 ≤
      (phishingEntry defaultInputs).percentiles.median ∧
    (phishingEntry defaultInputs).percentiles.median ≤
      (phishingEntry defaultInputs).percentiles.p75 ∧
    (phishingEntry defaultInputs).percentiles.p75 ≤
      (phishingEntry defaultInputs).percentiles.p95 :=
  (c2_percentile_ordering_nonneg defaultInputs
      (by norm_num [inRange, INPUT_LIMITS, defaultInputs])).1
    (phishingEntry defaultInputs)
    (by simp [phishingEntry, results, scenarios, THREAT_SCENARIOS])

/-! Numerical bounds on the logarithms appearing in the worked example (C3).
The bounds on `log (5/4)` come from the degree-10 Taylor estimate of
`log (1 - x)` at `x = -1/4`; everything else is interval arithmetic over
Mathlib's nine-digit bounds on `log 2` together with the factorizations
`10 = 2^3 * (5/4)`, `5/2 = 10/2^2` and `5 = 10/2`. -/

lemma log54_bounds : (0.22314321 : ℝ) ≤ Real.log (5 / 4) ∧ Real.log (5 / 4) ≤ 0.22314386 := by
  have habs : |(-(4⁻¹ : ℝ))| = 4⁻¹ := by
    rw [abs_neg]
    exact abs_of_nonneg (by norm_num)
  have hlt : |(-(4⁻¹ : ℝ))| < 1 := by
    rw [habs]; norm_num
  have h := Real.abs_log_sub_add_sum_range_le hlt 10
  rw [habs] at h
  rw [show (1 : ℝ) - -4⁻¹ = 5 / 4 by norm_num] at h
  rw [abs_le] at h
  obtain ⟨h1, h2⟩ := h
  simp only [Finset.sum_range_succ, Finset.sum_range_zero] at h1 h2
  push_cast at h1 h2
  norm_num at h1 h2
  constructor <;> linarith

lemma logTen_eq : Real.log 10 = 3 * Real.log 2 + Real.log (5 / 4) := by
  rw [show (10 : ℝ) = 2 ^ 3 * (5 / 4) by norm_num,
    Real.log_mul (by norm_num) (by norm_num), Real.log_pow]
  push_cast
  ring

lemma logTen_bounds : (2.3025847509 : ℝ) ≤ Real.log 10 ∧ Real.log 10 ≤ 2.3025854024 := by
  have h54 := log54_bounds
  have h2a := Real.log_two_gt_d9
  have h2b := Real.log_two_lt_d9
  rw [logTen_eq]
  constructor <;> linarith

lemma logTen_pos : (0 : ℝ) < Real.log 10 :=
  lt_of_lt_of_le (by norm_num) logTen_bounds.1

lemma log52_bounds :
    (0.9162903893 : ℝ) ≤ Real.log (5 / 2) ∧ Real.log (5 / 2) ≤ 0.9162910418 := by
  have hb := logTen_bounds
  have h2a := Real.log_two_gt_d9
  have h2b := Real.log_two_lt_d9
  rw [show (5 / 2 : ℝ) = 10 / 2 ^ 2 by norm_num,
    Real.log_div (by norm_num) (by norm_num), Real.log_pow]
  push_cast
  constructor <;> linarith

lemma log5_bounds : (1.6094375701 : ℝ) ≤ Real.log 5 ∧ Real.log 5 ≤ 1.6094382221 := by
  have hb := logTen_bounds
  have h2a := Real.log_two_gt_d9
  have h2b := Real.log_two_lt_d9
  rw [show (5 : ℝ) = 10 / 2 by norm_num, Real.log_div (by norm_num) (by norm_num)]
  constructor <;> linarith

lemma logb_52_bounds :
    (0.3979397 : ℝ) ≤ Real.logb 10 (5 / 2) ∧ Real.logb 10 (5 / 2) ≤ 0.3979403 := by
  have hb := logTen_bounds
  have hn := log52_bounds
  rw [← Real.log_div_log]
  constructor
  · rw [le_div_iff₀ logTen_pos]
    nlinarith [hn.1, hb.2]
  · rw [div_le_iff₀ logTen_pos]
    nlinarith [hn.2, hb.1]

lemma logb_5_bounds :
    (0.6989696 : ℝ) ≤ Real.logb 10 5 ∧ Real.logb 10 5 ≤ 0.6989704 := by
  have hb := logTen_bounds
  have hn := log5_bounds
  rw [← Real.log_div_log]
  constructor
  · rw [le_div_iff₀ logTen_pos]
    nlinarith [hn.1, hb.2]
  · rw [div_le_iff₀ logTen_pos]
    nlinarith [hn.2, hb.1]

/-! Evaluation of the organization factors at the worked-example profile. -/

lemma sizeFactor_default_eq :
    sizeFactor defaultInputs = Real.logb 10 (5 / 2) * 0.2 + 1 := by
  have hlb := logb_52_bounds
  unfold sizeFactor
  rw [show defaultInputs.employees = (250 : ℝ) from rfl,
    show max (250 : ℝ) 10 = 250 from max_eq_left (by norm_num),
    show (250 : ℝ) / 100 = 5 / 2 by norm_num]
  exact max_eq_right (by linarith [hlb.1])

lemma sizeFactor_default_bounds :
    (1.07958794 : ℝ) ≤ sizeFactor defaultInputs ∧
    sizeFactor defaultInputs ≤ 1.07958806 := by
  have hlb := logb_52_bounds
  rw [sizeFactor_default_eq]
  constructor <;> linarith

lemma revenueFactor_default_eq :
    revenueFactor defaultInputs = Real.logb 10 5 * 0.15 + 1 := by
  have hlb := logb_5_bounds
  unfold revenueFactor
  rw [show defaultInputs.revenue = (50000000 : ℝ) from rfl,
    show max (50000000 : ℝ) 1000000 = 50000000 from max_eq_left (by norm_num),
    show (50000000 : ℝ) / 10000000 = 5 by norm_num]
  exact max_eq_right (by linarith [hlb.1])

lemma revenueFactor_default_bounds :
    (1.10484544 : ℝ) ≤ revenueFactor defaultInputs ∧
    revenueFactor defaultInputs ≤ 1.10484556 := by
  have hlb := logb_5_bounds
  rw [revenueFactor_default_eq]
  constructor <;> linarith

lemma securityScore_default : securityScore defaultInputs = 1 := by
  norm_num [securityScore, defaultInputs, SECURITY_WEIGHTS.BACKUPS, SECURITY_WEIGHTS.MFA,
    SECURITY_WEIGHTS.PHISHING_TRAINING, SECURITY_WEIGHTS.VENDOR_REVIEWS,
    SECURITY_WEIGHTS.IR_TABLETOP, SECURITY_WEIGHTS.BASE_SECURITY]

lemma riskReduction_default : riskReduction defaultInputs = 0.65 := by
  unfold riskReduction
  rw [securityScore_default, show (1 : ℝ) * 0.65 = 0.65 by norm_num]
  exact min_eq_left (by norm_num)

lemma adjustedBase_default_bounds :
    (125241.65 : ℝ) ≤ adjustedBase 300000 (organizationFactors defaultInputs) ∧
    adjustedBase 300000 (organizationFactors defaultInputs) ≤ 125241.71 := by
  have hsf := sizeFactor_default_bounds
  have hrf := revenueFactor_default_bounds
  have heq : adjustedBase 300000 (organizationFactors defaultInputs) =
      300000 * sizeFactor defaultInputs * revenueFactor defaultInputs * 0.35 := by
    unfold adjustedBase organizationFactors
    rw [riskReduction_default]
    norm_num
  have hp1 : (1.07958794 : ℝ) * 1.10484544 ≤
      sizeFactor defaultInputs * revenueFactor defaultInputs :=
    mul_le_mul hsf.1 hrf.1 (by norm_num) (by linarith [hsf.1])
  have hp2 : sizeFactor defaultInputs * revenueFactor defaultInputs ≤
      (1.07958806 : ℝ) * 1.10484556 :=
    mul_le_mul hsf.2 hrf.2 (by linarith [hrf.1]) (by norm_num)
  rw [heq]
  constructor <;> nlinarith [hp1, hp2]

lemma roundEqOfBounds {x : ℝ} {z : ℤ} (h1 : (z : ℝ) ≤ x + 1 / 2)
    (h2 : x + 1 / 2 < z + 1) : round x = z := by
  rw [round_eq]
  exact Int.floor_eq_iff.mpr ⟨h1, h2⟩

lemma phishing_percentiles_default :
    generateRealisticPercentiles 300000 (organizationFactors defaultInputs) =
      ⟨18786, 68883, 125242, 206649, 495957⟩ := by
  have hA := adjustedBase_default_bounds
  set A := adjustedBase 300000 (organizationFactors defaultInputs) with hAdef
  have hA0 : (0 : ℝ) ≤ A := by linarith [hA.1]
  simp only [generateRealisticPercentiles, longTailFactor]
  rw [fifth_max_eq A hA0]
  simp only [Percentiles.mk.injEq]
  refine ⟨?_, ?_, ?_, ?_, ?_⟩ <;>
    exact roundEqOfBounds (by push_cast; linarith [hA.1, hA.2])
      (by push_cast; linarith [hA.1, hA.2])

lemma results_securityScore_default : (results defaultInputs).securityScore = 100 := by
  simp only [results]
  rw [securityScore_default, show (1 : ℝ) * 100 = 100 by norm_num]
  exact roundEqOfBounds (by norm_num) (by norm_num)

lemma results_riskReduction_default : (results defaultInputs).riskReduction = 65 := by
  simp only [results]
  rw [riskReduction_default, show (0.65 : ℝ) * 100 = 65 by norm_num]
  exact roundEqOfBounds (by norm_num) (by norm_num)

lemma scenarios_head_default :
    ((results defaultInputs).scenarios.head?.map fun sr => sr.percentiles) =
      some (generateRealisticPercentiles 300000 (organizationFactors defaultInputs)) := by
  simp [results, scenarios, THREAT_SCENARIOS, phishingScenario]

/-- C3 counterexample: at the example profile (250 employees, 50M revenue, 1M
insurance, all five controls on) the engine's Phishing median is 125242, which
differs from the claimed value 125246 by more than any rounding tolerance. -/
theorem c3_counterexample_phishing_median :
    ((results defaultInputs).scenarios.head?.map fun sr => sr.percentiles.median) =
      some 125242 ∧
    ¬(((125242 : ℤ) = 125246) ∨ |(125242 : ℤ) - 125246| ≤ 1) := by
  constructor
  · have h := phishing_percentiles_default
    simp [results, scenarios, THREAT_SCENARIOS, phishingScenario, h]
  · decide

/-- C3 (amended): for the profile `{employees: 250, revenue: 50,000,000,
insuranceLimit: 1,000,000}` with all five controls enabled the engine returns
`securityScore = 100`, `riskReduction = 65`, `sizeFactor ≈ 1.0796`,
`revenueFactor ≈ 1.1048`, and for the Phishing scenario (baseCost 300,000)
produces `5th = 18786`, `25th = 68883`, `Median = 125242`, `75th = 206649`,
`95th = 495957`. -/
theorem c3_worked_example_amended :
    (results defaultInputs).securityScore = 100 ∧
    (results defaultInputs).riskReduction = 65 ∧
    |sizeFactor defaultInputs - 1.0796| ≤ 0.0001 ∧
    |revenueFactor defaultInputs - 1.1048| ≤ 0.0001 ∧
    ((results defaultInputs).scenarios.head?.map fun sr => sr.percentiles) =
      some ⟨18786, 68883, 125242, 206649, 495957⟩ := by
  have hsf := sizeFactor_default_bounds
  have hrf := revenueFactor_default_bounds
  refine ⟨results_securityScore_default, results_riskReduction_default,
    abs_le.mpr ⟨by linarith [hsf.1], by linarith [hsf.2]⟩,
    abs_le.mpr ⟨by linarith [hrf.1], by linarith [hrf.2]⟩, ?_⟩
  rw [scenarios_head_default, phishing_percentiles_default]

end
